import Mathlib

/-!
# Verification of the PredictPro settlement and leaderboard engine

Shallow embedding of the reconciliation core found in the repository
(`getCurrentNFLWeekInfo`, `getNFLOdds`, `syncNflDataAndSettle` in the
functions module, plus the submission flow in `NFLGamePicks`), together
with theorems settling the specification's claims about it.

Modelling conventions:
* JS numbers holding money are modelled as `ℚ`.  For the three payout
  products that actually occur (`25*0.1`, `50*0.12`, `100*0.15`) the JS
  double results are exactly `2.5`, `6` and `15`, so `ℚ` agrees with the
  source on every reachable value.
* Missing JS fields become `Option`; a property access that would throw a
  `TypeError` becomes `Except.error ()`.
* JS object maps that the code iterates over in insertion order become
  `List`s kept in the same order.
* Timestamps: an `Instant` is a day count from an epoch Sunday plus the
  minutes elapsed that day, so `getDay` is `day % 7` and `setDate`
  arithmetic is day arithmetic.  The `weekId` string
  `week-YYYY-M-D` of the computed Tuesday is rendered as that Tuesday's
  day index (calendar dates and day indexes are in bijection, so equality
  and distinctness of `weekId`s are preserved exactly).
-/

deriving instance DecidableEq for Except

namespace PredictPro

/-- Per-pick outcome enum, `'pending' | 'win' | 'loss'` in the source. -/
inductive Outcome where
  | pending
  | win
  | loss
deriving DecidableEq, Repr

/-- One stored fixture, the shape written by `getNFLOdds` and
`syncNflDataAndSettle` (`id`, `homeTeam`, `awayTeam`, `commenceTime`,
`odds.moneyline`, `score.home/away`, `completed`). -/
structure Game where
  id : String
  homeTeam : String
  awayTeam : String
  commenceTime : Int
  moneyline : List (String × Int)
  scoreHome : Option Int
  scoreAway : Option Int
  completed : Bool
deriving DecidableEq, Repr

/-- One game-level selection inside a submission (`picksToSubmit[gameId]`
in `NFLGamePicks.handleSubmitPicks`). -/
structure Pick where
  gameId : String
  pick : String
  tier : Nat
  outcome : Outcome
  winnings : ℚ
deriving DecidableEq, Repr

/-- One user's weekly predictions document
(`users/{uid}/predictions/{weekId}`). -/
structure Submission where
  userId : String
  weekId : Nat
  picks : List Pick
  tieBreakerPoints : Int
  tier : Nat
  isSettled : Bool
  totalCorrectPicks : Nat
  totalWinnerBucksWon : ℚ
deriving DecidableEq, Repr

/-! ## Week clock (`getCurrentNFLWeekInfo`) -/

/-- A wall-clock instant: days since an epoch Sunday, and minutes within
the day.  Day `0` being a Sunday makes `day % 7` agree with JS
`Date.getDay` (`0`=Sunday … `6`=Saturday). -/
structure Instant where
  day : Nat
  minutes : Nat
deriving DecidableEq, Repr

/-- Absolute minute count of an instant, used to compare instants. -/
def absMinutes (i : Instant) : Nat :=
  i.day * 1440 + i.minutes

/-- JS `now.getDay()`. -/
def dayOfWeek (i : Instant) : Nat := i.day % 7

/-- The day index of the Tuesday that
`tuesday.setDate(now.getDate() + (2 + 7 - currentDay) % 7)` lands on:
the next occurring Tuesday, today if today is a Tuesday. -/
def weekTuesday (i : Instant) : Nat :=
  i.day + (2 + 7 - dayOfWeek i) % 7

/-- The temporal fields of a week document as produced by
`getCurrentNFLWeekInfo`.  `weekId` is the computed Tuesday's day index
(standing for the `week-YYYY-M-D` string of that date); window fields are
`(day, minutes-in-day)` pairs. -/
structure WeekInfo where
  weekId : Nat
  bettingWindowStart : Nat × Nat
  bettingWindowEnd : Nat × Nat
  picksRevealTime : Nat × Nat
  tieBreakerGameId : Option String
deriving DecidableEq, Repr

/-- The function `getCurrentNFLWeekInfo`: upcoming Tuesday 00:01 starts the week,
betting closes Thursday 17:00 (two days later), reveal Friday 12:00
(three days later); `tieBreakerGameId` starts out `null`. -/
def getCurrentNFLWeekInfo (i : Instant) : WeekInfo :=
  let t := weekTuesday i
  { weekId := t
  , bettingWindowStart := (t, 1)
  , bettingWindowEnd := (t + 2, 17 * 60)
  , picksRevealTime := (t + 3, 12 * 60)
  , tieBreakerGameId := none }

/-! ## Settlement engine (`syncNflDataAndSettle`, per-user loop) -/

/-- The fixed per-tier payout table
`const payoutMultiplier = { 25: 0.1, 50: 0.12, 100: 0.15 }`.
A tier outside the table has no entry; the JS product would then be
`NaN`, but every submission path only creates tiers 25/50/100, and all
theorems touching winnings either fix the tier or are independent of this
default, which is set to `0` here. -/
def payoutMultiplier (tier : Nat) : ℚ :=
  if tier = 25 then 1/10
  else if tier = 50 then 3/25
  else if tier = 100 then 3/20
  else 0

/-- The winner computed by strict score comparison:
`if (homeScore > awayScore) winner = homeTeam; else if (awayScore > homeScore) winner = awayTeam;`
with `winner` left `null` on equal scores.  A missing score parses to
`NaN` in the source, making both comparisons false, which the catch-all
branch reproduces. -/
def winnerOf (g : Game) : Option String :=
  match g.scoreHome, g.scoreAway with
  | some h, some a =>
      if h > a then some g.homeTeam
      else if a > h then some g.awayTeam
      else none
  | _, _ => none

/-- Resolution of one still-`pending` pick against its completed game:
`outcome = winner && pick === winner ? 'win' : winner ? 'loss' : 'pending'`,
`winnings = outcome === 'win' ? tier * payoutMultiplier[tier] : 0`. -/
def settlePendingPick (g : Game) (p : Pick) : Pick :=
  let outcome :=
    match winnerOf g with
    | some w => if p.pick = w then Outcome.win else Outcome.loss
    | none => Outcome.pending
  { p with
    outcome := outcome
    winnings := if outcome = Outcome.win then (p.tier : ℚ) * payoutMultiplier p.tier else 0 }

/-- Accumulated state of the per-pick settlement loop: the rewritten
picks, `totalCorrectPicks`, `totalWinnerBucksWonForThisEntry` and
`allGamesInThisSubmissionCompleted`. -/
structure SettleResult where
  picks : List Pick
  tcp : Nat
  won : ℚ
  allCompleted : Bool
deriving DecidableEq, Repr

/-- One iteration of the `for (const gameId in updatedPicks)` loop of
`syncNflDataAndSettle`, acting on pick `p` with `r` holding the result
of the remaining iterations: a pending pick of a completed game is
resolved and, on a win, counted; an already-`win` pick is re-summed from
its stored winnings; a `loss` pick contributes nothing; a pick whose
game is missing or not completed is left untouched and clears
`allGamesInThisSubmissionCompleted`. -/
def settleStep (games : List Game) (p : Pick) (r : SettleResult) : SettleResult :=
  match games.find? (fun g => g.id == p.gameId) with
  | some g =>
    if g.completed then
      match p.outcome with
      | Outcome.pending =>
        let p2 := settlePendingPick g p
        if p2.outcome = Outcome.win then
          ⟨p2 :: r.picks, r.tcp + 1, p2.winnings + r.won, r.allCompleted⟩
        else
          ⟨p2 :: r.picks, r.tcp, r.won, r.allCompleted⟩
      | Outcome.win => ⟨p :: r.picks, r.tcp + 1, p.winnings + r.won, r.allCompleted⟩
      | Outcome.loss => ⟨p :: r.picks, r.tcp, r.won, r.allCompleted⟩
    else ⟨p :: r.picks, r.tcp, r.won, false⟩
  | none => ⟨p :: r.picks, r.tcp, r.won, false⟩

/-- The whole per-pick loop.  The source iterates the picks left to
right while accumulating; since `+` on the totals is commutative and
associative and each iteration rewrites exactly its own pick, this right
fold produces the same totals and the same pick list. -/
def settlePicksLoop (games : List Game) : List Pick → SettleResult
  | [] => ⟨[], 0, 0, true⟩
  | p :: rest => settleStep games p (settlePicksLoop games rest)

/-- The rewrite the loop body applies to the pick itself: a pending pick
of a completed game is resolved, every other pick is kept as stored. -/
def stepPick (games : List Game) (p : Pick) : Pick :=
  match games.find? (fun g => g.id == p.gameId) with
  | some g =>
    if g.completed then
      match p.outcome with
      | Outcome.pending => settlePendingPick g p
      | _ => p
    else p
  | none => p

/-- One settlement pass over a not-yet-settled submission: rewrites
`picks`, `totalCorrectPicks`, `totalWinnerBucksWon`, `isSettled`, and
returns the `winnerBucks` increment applied to the owner's profile,
which the source issues only under
`allGamesInThisSubmissionCompleted && total > (stored || 0)` and then as
`netWinnings = total - (stored || 0)`. -/
def settleSubmission (games : List Game) (s : Submission) : Submission × ℚ :=
  let r := settlePicksLoop games s.picks
  ({ s with
      picks := r.picks
      totalCorrectPicks := r.tcp
      totalWinnerBucksWon := r.won
      isSettled := r.allCompleted },
   if r.allCompleted ∧ s.totalWinnerBucksWon < r.won then r.won - s.totalWinnerBucksWon else 0)

/-- The per-user guard of the settlement loop:
`if (userPredictionsSnap.exists && !userPredictionsSnap.data().isSettled)` —
a submission already marked settled is not touched and credits nothing. -/
def processSubmission (games : List Game) (s : Submission) : Submission × ℚ :=
  if s.isSettled then (s, 0) else settleSubmission games s

/-! ## Provider records and the odds/scores normalizer -/

/-- One outcome of a provider h2h market (`{ name, price }`). -/
structure OddsOutcome where
  name : String
  price : Int
deriving DecidableEq, Repr

/-- One provider market (`{ key, outcomes }`); `outcomes` is `none`
when the field is absent from the payload, in which case every
`.outcomes.forEach`/`.outcomes.reduce` in the source throws. -/
structure Market where
  key : String
  outcomes : Option (List OddsOutcome)
deriving DecidableEq, Repr

/-- One provider bookmaker (`{ markets }`); `markets` is `none` when
the field is absent, in which case every `.markets.find` in the source
throws. -/
structure Bookmaker where
  markets : Option (List Market)
deriving DecidableEq, Repr

/-- One raw provider odds event; `bookmakers` is `none` when the field is
absent from the payload. -/
structure OddsRecord where
  id : String
  homeTeam : String
  awayTeam : String
  commenceTime : Int
  bookmakers : Option (List Bookmaker)
deriving DecidableEq, Repr

/-- One `{ name, score }` entry of a provider score record; the numeric
string has already been read as an integer (`parseInt`). -/
structure ScoreEntry where
  name : String
  score : Int
deriving DecidableEq, Repr

/-- One raw provider score record; `scores` is `none` when the field is
absent (game not started). -/
structure ScoreRecord where
  id : String
  completed : Bool
  scores : Option (List ScoreEntry)
deriving DecidableEq, Repr

/-- Evaluation of `parseInt(record.scores.find(s => s.name === team)?.score || 0)`:
the named team's score, defaulting to `0` when the entry is missing
(or its score is the falsy `0`, which coincides). -/
def scoreLookup (entries : List ScoreEntry) (team : String) : Int :=
  match entries.find? (fun e => e.name == team) with
  | some e => e.score
  | none => 0

/-- The moneyline extraction of the on-demand `getNFLOdds` map:
guarded by `if (event.bookmakers && event.bookmakers.length > 0)` and
`if (h2hMarket)`, so a missing `bookmakers` field, an empty list, or an
absent h2h market all leave the mapping empty.  However, a first
bookmaker without a `markets` field makes
`firstBookmaker.markets.find(...)` throw, and an h2h market without an
`outcomes` field makes `h2hMarket.outcomes.forEach(...)` throw; both
are modelled as `Except.error ()`. -/
def extractMoneylineOnDemand (e : OddsRecord) : Except Unit (List (String × Int)) :=
  match e.bookmakers with
  | some (b :: _) =>
    match b.markets with
    | none => Except.error ()
    | some ms =>
      match ms.find? (fun m => m.key == "h2h") with
      | some m =>
        match m.outcomes with
        | none => Except.error ()
        | some os => Except.ok (os.map (fun o => (o.name, o.price)))
      | none => Except.ok []
  | _ => Except.ok []

/-- The per-event normalizer of `getNFLOdds`: a fresh `Game` with the
extracted moneyline, null scores and `completed: false`; the extraction
errors propagate. -/
def normalizeOddsEvent (e : OddsRecord) : Except Unit Game :=
  (extractMoneylineOnDemand e).map (fun ml =>
    { id := e.id
    , homeTeam := e.homeTeam
    , awayTeam := e.awayTeam
    , commenceTime := e.commenceTime
    , moneyline := ml
    , scoreHome := none
    , scoreAway := none
    , completed := false })

/-- The moneyline extraction of the sync path's new-game branch:
`apiGame.bookmakers[0]?.markets.find(m => m.key === 'h2h')?.outcomes.reduce(...) || {}`.
When the `bookmakers` field is absent, `apiGame.bookmakers[0]` throws a
`TypeError` (the optional chain starts only after the index); an empty
list short-circuits at `[0]?.`, and a missing h2h market short-circuits
at `?.outcomes`, both reaching `|| {}`.  A present first bookmaker
without a `markets` field throws at `.markets.find`, and a found h2h
market without an `outcomes` field throws at `.outcomes.reduce`; all
throws are modelled as `Except.error ()`. -/
def syncNewGameOdds (e : OddsRecord) : Except Unit (List (String × Int)) :=
  match e.bookmakers with
  | none => Except.error ()
  | some bs =>
    match bs.head? with
    | none => Except.ok []
    | some b =>
      match b.markets with
      | none => Except.error ()
      | some ms =>
        match ms.find? (fun m => m.key == "h2h") with
        | none => Except.ok []
        | some m =>
          match m.outcomes with
          | none => Except.error ()
          | some os => Except.ok (os.map (fun o => (o.name, o.price)))

/-! ## Game merge and the week write of `syncNflDataAndSettle` -/

/-- The stored week document `nflWeeks/{weekId}`. -/
structure WeekDoc where
  weekId : Nat
  bettingWindowStart : Nat × Nat
  bettingWindowEnd : Nat × Nat
  picksRevealTime : Nat × Nat
  tieBreakerGameId : Option String
  actualTieBreakerTotalPoints : Option Int
  games : List Game
deriving DecidableEq, Repr

/-- JS `v || null` on an integer-or-null field: `0` is falsy and also
collapses to `null`. -/
def jsOrNullInt (x : Option Int) : Option Int :=
  match x with
  | some v => if v = 0 then none else some v
  | none => none

/-- The score half of the merge for one stored game: a fragment with
`completed` reads both team scores from its `scores` list, sets them
together with `completed = true`, and fills the tie-breaker total on
first completion of the designated game — but when that completed
fragment has no `scores` field at all, `liveScoreData.scores.find(...)`
throws a `TypeError` (modelled as `Except.error ()`); a fragment with a
`scores` field but not completed overwrites the scores and sets
`completed = false`; otherwise the game is untouched.  Returns the
updated game and the threaded `actualTieBreakerTotalPoints`. -/
def mergeScoreInto (apiScores : List ScoreRecord) (tbg : Option String) (attp : Option Int)
    (g : Game) : Except Unit (Game × Option Int) :=
  match apiScores.find? (fun s => s.id == g.id) with
  | some sr =>
    if sr.completed then
      match sr.scores with
      | none => Except.error ()
      | some es =>
        Except.ok
          ({ g with
              scoreHome := some (scoreLookup es g.homeTeam)
              scoreAway := some (scoreLookup es g.awayTeam)
              completed := true },
           if tbg = some g.id ∧ attp = none then
             some (scoreLookup es g.homeTeam + scoreLookup es g.awayTeam)
           else attp)
    else
      match sr.scores with
      | some es =>
        Except.ok
          ({ g with
              scoreHome := some (scoreLookup es g.homeTeam)
              scoreAway := some (scoreLookup es g.awayTeam)
              completed := false }, attp)
      | none => Except.ok (g, attp)
  | none => Except.ok (g, attp)

/-- The odds half of the merge for one stored game:
`liveOddsData.bookmakers[0]?.markets.find(m => m.key === 'h2h')`
followed by `if (h2hMarket) { ... h2hMarket.outcomes.reduce(...) }` —
a full replacement of `odds.moneyline` when the market is found.  A
missing `bookmakers` field throws at the indexing, a first bookmaker
without `markets` throws at `.find`, and a found market without
`outcomes` throws at `.reduce`; an empty bookmaker list or a missing
h2h market short-circuits and keeps the stored odds. -/
def mergeOddsInto (apiOdds : List OddsRecord) (g : Game) : Except Unit Game :=
  match apiOdds.find? (fun o => o.id == g.id) with
  | some od =>
    match od.bookmakers with
    | none => Except.error ()
    | some bs =>
      match bs.head? with
      | some b =>
        match b.markets with
        | none => Except.error ()
        | some ms =>
          match ms.find? (fun m => m.key == "h2h") with
          | some m =>
            match m.outcomes with
            | none => Except.error ()
            | some os =>
              Except.ok { g with moneyline := os.map (fun o => (o.name, o.price)) }
          | none => Except.ok g
      | none => Except.ok g
  | none => Except.ok g

/-- Full merge of the fresh provider batches into one stored game:
score fragment first, then odds fragment, as in the
`currentWeekGames.map(game => ...)` body; either half's `TypeError`
propagates (the whole pass aborts in its `catch`). -/
def mergeGame (apiScores : List ScoreRecord) (apiOdds : List OddsRecord) (tbg : Option String)
    (attp : Option Int) (g : Game) : Except Unit (Game × Option Int) :=
  match mergeScoreInto apiScores tbg attp g with
  | Except.error e => Except.error e
  | Except.ok sa => (mergeOddsInto apiOdds sa.1).map (fun g2 => (g2, sa.2))

/-- The merge mapped over the stored game list, threading the
tie-breaker total through in list order. -/
def updateExistingGames (apiScores : List ScoreRecord) (apiOdds : List OddsRecord)
    (tbg : Option String) : Option Int → List Game → Except Unit (List Game × Option Int)
  | attp, [] => Except.ok ([], attp)
  | attp, g :: rest => do
    let ga ← mergeGame apiScores apiOdds tbg attp g
    let tailRes ← updateExistingGames apiScores apiOdds tbg ga.2 rest
    pure (ga.1 :: tailRes.1, tailRes.2)

/-- The `apiOddsData.forEach` append: every fresh odds event whose id is
not yet in the (growing) list is appended as a new game with null scores
and `completed: false`. -/
def appendNewGames (gs : List Game) : List OddsRecord → Except Unit (List Game)
  | [] => Except.ok gs
  | e :: rest =>
    if gs.any (fun g => g.id == e.id) then appendNewGames gs rest
    else do
      let ml ← syncNewGameOdds e
      appendNewGames
        (gs ++ [{ id := e.id
                , homeTeam := e.homeTeam
                , awayTeam := e.awayTeam
                , commenceTime := e.commenceTime
                , moneyline := ml
                , scoreHome := none
                , scoreAway := none
                , completed := false }]) rest

/-- The week-document write of one `syncNflDataAndSettle` pass:
merge the provider batches into the stored games, then
`weekDocRef.update({ ...weekInfo, games, actualTieBreakerTotalPoints, ... })`.
The spread of `weekInfo` includes its `tieBreakerGameId`, which
`getCurrentNFLWeekInfo` always sets to `null`. -/
def syncWeekPhase (wi : WeekInfo) (stored : WeekDoc) (apiOdds : List OddsRecord)
    (apiScores : List ScoreRecord) : Except Unit WeekDoc := do
  let tbg := stored.tieBreakerGameId
  let attp0 := jsOrNullInt stored.actualTieBreakerTotalPoints
  let ga ← updateExistingGames apiScores apiOdds tbg attp0 stored.games
  let gs2 ← appendNewGames ga.1 apiOdds
  pure { weekId := wi.weekId
       , bettingWindowStart := wi.bettingWindowStart
       , bettingWindowEnd := wi.bettingWindowEnd
       , picksRevealTime := wi.picksRevealTime
       , tieBreakerGameId := wi.tieBreakerGameId
       , actualTieBreakerTotalPoints := ga.2
       , games := gs2 }

/-! ## Leaderboard builder -/

/-- One leaderboard entry as pushed by the builder loop. -/
structure LeaderboardEntry where
  id : String
  username : String
  totalCorrectPicks : Nat
  totalWinnerBucksWon : ℚ
  tieBreakerPoints : Int
deriving DecidableEq, Repr

/-- The sort comparator: correct picks descending, then winnings
descending, then distance of the tie-breaker guess from the actual total
ascending.  Negative means `a` before `b`, as in JS. -/
def entryCmp (actualTotal : Int) (a b : LeaderboardEntry) : ℚ :=
  if b.totalCorrectPicks ≠ a.totalCorrectPicks then
    (b.totalCorrectPicks : ℚ) - (a.totalCorrectPicks : ℚ)
  else if b.totalWinnerBucksWon ≠ a.totalWinnerBucksWon then
    b.totalWinnerBucksWon - a.totalWinnerBucksWon
  else
    ((a.tieBreakerPoints - actualTotal).natAbs : ℚ) - ((b.tieBreakerPoints - actualTotal).natAbs : ℚ)

/-- Entry `a` sorts no later than `b` under the comparator. -/
def leOrder (actualTotal : Int) (a b : LeaderboardEntry) : Prop :=
  entryCmp actualTotal a b ≤ 0

instance leOrderDecidable (t : Int) : DecidableRel (leOrder t) :=
  fun a b => inferInstanceAs (Decidable (entryCmp t a b ≤ 0))

/-- The builder's `leaderboardEntries.sort(...)`: JS `Array.sort` with a
consistent comparator produces the stable sorted permutation of its
input, which insertion sort computes. -/
def sortEntries (actualTotal : Int) (l : List LeaderboardEntry) : List LeaderboardEntry :=
  List.insertionSort (leOrder actualTotal) l

/-- The stored leaderboard document `leaderboards/{weekId}`. -/
structure Leaderboard where
  weekId : Nat
  entries : List LeaderboardEntry
  actualTieBreakerTotalPoints : Option Int
deriving DecidableEq, Repr

/-- The leaderboard step of a sync pass:
`if (allGamesInWeekCompleted && updatedWeekData.actualTieBreakerTotalPoints !== null)`
builds and writes the document, otherwise nothing is produced. -/
def leaderboardPhase (wd : WeekDoc) (entries : List LeaderboardEntry) : Option Leaderboard :=
  if wd.games.all (fun g => g.completed) then
    match wd.actualTieBreakerTotalPoints with
    | some t =>
      some { weekId := wd.weekId
           , entries := sortEntries t entries
           , actualTieBreakerTotalPoints := some t }
    | none => none
  else none

/-! ## Concrete fixtures used by counterexamples and witnesses

The two-game scenario follows the spec's end-to-end scenario A/B: game
`gA` (pick home, tier 50) and game `gB` (pick away, tier 25); `gB0` is
game B before completion, `gB1` after completing 14–20. -/

/-- Game A, completed with a 24–10 home win. -/
def gA : Game := ⟨"gA", "H1", "A1", 0, [], some 24, some 10, true⟩

/-- Game B before kickoff: no scores, not completed. -/
def gB0 : Game := ⟨"gB", "H2", "A2", 0, [], none, none, false⟩

/-- Game B after completing with a 14–20 away win. -/
def gB1 : Game := ⟨"gB", "H2", "A2", 0, [], some 14, some 20, true⟩

/-- Pick of game A's home team at tier 50. -/
def pA : Pick := ⟨"gA", "H1", 50, Outcome.pending, 0⟩

/-- Pick of game B's away team at tier 25. -/
def pB : Pick := ⟨"gB", "A2", 25, Outcome.pending, 0⟩

/-- A fresh two-pick submission over games A and B. -/
def s0 : Submission := ⟨"u1", 2, [pA, pB], 45, 50, false, 0, 0⟩

/-- Pick `pA` after settling against completed game A: a win worth
`50 * 0.12 = 6`. -/
def pAWin : Pick := ⟨"gA", "H1", 50, Outcome.win, 6⟩

/-- Pick `pB` after settling against completed game B: a win worth
`25 * 0.1 = 5/2`. -/
def pBWin : Pick := ⟨"gB", "A2", 25, Outcome.win, 5/2⟩

/-- Submission `s0` after a settlement run in which only game A was completed. -/
def s0Run1 : Submission := ⟨"u1", 2, [pAWin, pB], 45, 50, false, 1, 6⟩

/-- Submission `s0` fully settled: both picks won, total `8.5`. -/
def s0Final : Submission := ⟨"u1", 2, [pAWin, pBWin], 45, 50, true, 2, 17/2⟩

/-- A completed game that ended in a 20–20 tie. -/
def gT : Game := ⟨"gT", "H", "A", 0, [], some 20, some 20, true⟩

/-- A pending pick on the tied game's home team, tier 25. -/
def pT : Pick := ⟨"gT", "H", 25, Outcome.pending, 0⟩

/-- A fresh one-pick submission over the tied game. -/
def sT : Submission := ⟨"u2", 2, [pT], 40, 25, false, 0, 0⟩

/-- A stored week document whose tie-breaker game id has been set. -/
def storedW : WeekDoc := ⟨2, (2, 1), (4, 1020), (5, 720), some "g1", none, []⟩

/-- A stored game already completed 21–14. -/
def gDone : Game := ⟨"gD", "H", "A", 0, [], some 21, some 14, true⟩

/-- A later provider score record for the same game carrying live scores
but not marked complete. -/
def srRegress : ScoreRecord := ⟨"gD", false, some [⟨"H", 24⟩, ⟨"A", 20⟩]⟩

/-- A provider score record marking the game complete at 24–20. -/
def srDone : ScoreRecord := ⟨"gD", true, some [⟨"H", 24⟩, ⟨"A", 20⟩]⟩

/-- A provider score record marking the game complete but carrying no
`scores` field at all. -/
def srDoneNoScores : ScoreRecord := ⟨"gD", true, none⟩

/-- Game `gDone` after merging `srDone`. -/
def gDoneMerged : Game := ⟨"gD", "H", "A", 0, [], some 24, some 20, true⟩

/-- A raw odds event with no `bookmakers` field at all. -/
def eNoBook : OddsRecord := ⟨"e1", "HN", "AN", 0, none⟩

/-- A raw odds event with an empty `bookmakers` list. -/
def eEmptyBook : OddsRecord := ⟨"e2", "HN", "AN", 0, some []⟩

/-- A raw odds event whose first bookmaker has a markets list without
an h2h market. -/
def eNoH2h : OddsRecord := ⟨"e3", "HN", "AN", 0, some [⟨some [⟨"totals", some []⟩]⟩]⟩

/-- A raw odds event whose first bookmaker has no `markets` field. -/
def eNoMarkets : OddsRecord := ⟨"e4", "HN", "AN", 0, some [⟨none⟩]⟩

/-- A raw odds event whose h2h market has no `outcomes` field. -/
def eNoOutcomes : OddsRecord := ⟨"e5", "HN", "AN", 0, some [⟨some [⟨"h2h", none⟩]⟩]⟩

/-- Leaderboard entry of user X: guessed 48. -/
def entryX : LeaderboardEntry := ⟨"uX", "X", 5, 10, 48⟩

/-- Leaderboard entry of user Y: tied with X on picks and winnings,
guessed 55. -/
def entryY : LeaderboardEntry := ⟨"uY", "Y", 5, 10, 55⟩

/-! ## Helper lemmas about the settlement loop -/

/-- Resolving a pending pick never changes which game it references. -/
theorem settlePendingPick_gameId (g : Game) (p : Pick) :
    (settlePendingPick g p).gameId = p.gameId := rfl

/-- A resolved pick is still `pending` only when the game had no winner. -/
theorem settlePendingPick_pending (g : Game) (p : Pick)
    (h : (settlePendingPick g p).outcome = Outcome.pending) : winnerOf g = none := by
  unfold settlePendingPick at h
  cases hw : winnerOf g with
  | none => rfl
  | some w =>
    rw [hw] at h
    by_cases hp : p.pick = w <;> simp [hp] at h

/-- A pick that resolved to `pending` has zero recorded winnings. -/
theorem settlePendingPick_pending_winnings (g : Game) (p : Pick)
    (h : (settlePendingPick g p).outcome = Outcome.pending) :
    (settlePendingPick g p).winnings = 0 := by
  unfold settlePendingPick at h ⊢
  cases hw : winnerOf g with
  | none => simp
  | some w =>
    rw [hw] at h
    by_cases hp : p.pick = w <;> simp [hp] at h

/-- Re-resolving a pick that stayed `pending` changes nothing. -/
theorem settlePendingPick_fix (g : Game) (p : Pick)
    (h : (settlePendingPick g p).outcome = Outcome.pending) :
    settlePendingPick g (settlePendingPick g p) = settlePendingPick g p := by
  have hw := settlePendingPick_pending g p h
  simp [settlePendingPick, hw]

/-- The loop iteration prepends exactly the rewritten pick. -/
theorem settleStep_picks (games : List Game) (p : Pick) (r : SettleResult) :
    (settleStep games p r).picks = stepPick games p :: r.picks := by
  unfold settleStep stepPick
  cases hf : games.find? (fun g => g.id == p.gameId) with
  | none => rfl
  | some g =>
    by_cases hc : g.completed = true
    · cases ho : p.outcome
      · by_cases hw : (settlePendingPick g p).outcome = Outcome.win <;> simp [hc, hw]
      · simp [hc]
      · simp [hc]
    · simp [hc]

/-- Feeding an already-rewritten pick back through the loop iteration
reproduces the iteration's original output: terminal outcomes are
re-summed, not recomputed, and a tie stays `pending` with zero
winnings. -/
theorem settleStep_restep (games : List Game) (p : Pick) (r : SettleResult) :
    settleStep games (stepPick games p) r = settleStep games p r := by
  have hfind : games.find? (fun g => g.id == (stepPick games p).gameId)
      = games.find? (fun g => g.id == p.gameId) := by
    unfold stepPick
    cases hf : games.find? (fun g => g.id == p.gameId) with
    | none => simpa using hf
    | some g =>
      by_cases hc : g.completed = true
      · cases p.outcome <;> simp [hc, settlePendingPick_gameId, hf]
      · simp [hc, hf]
  unfold settleStep
  rw [hfind]
  cases hf : games.find? (fun g => g.id == p.gameId) with
  | none => simp [stepPick, hf]
  | some g =>
    by_cases hc : g.completed = true
    · cases ho : p.outcome
      · have hsp : stepPick games p = settlePendingPick g p := by
          simp [stepPick, hf, hc, ho]
        cases hw : (settlePendingPick g p).outcome
        · simp [hc, ho, hsp, hw, settlePendingPick_fix g p hw]
        · simp [hc, ho, hsp, hw]
        · simp [hc, ho, hsp, hw]
      · have hsp : stepPick games p = p := by simp [stepPick, hf, hc, ho]
        simp [hc, ho, hsp]
      · have hsp : stepPick games p = p := by simp [stepPick, hf, hc, ho]
        simp [hc, ho, hsp]
    · have hsp : stepPick games p = p := by simp [stepPick, hf, hc]
      simp [hc, hsp]

/-- Re-running the per-pick loop on its own output reproduces the
output exactly. -/
theorem settlePicksLoop_idem (games : List Game) :
    ∀ l : List Pick, settlePicksLoop games (settlePicksLoop games l).picks = settlePicksLoop games l
  | [] => rfl
  | p :: l => by
    have h1 : settlePicksLoop games (p :: l) = settleStep games p (settlePicksLoop games l) := rfl
    rw [h1, settleStep_picks]
    have h2 : settlePicksLoop games (stepPick games p :: (settlePicksLoop games l).picks)
        = settleStep games (stepPick games p)
            (settlePicksLoop games (settlePicksLoop games l).picks) := rfl
    rw [h2, settlePicksLoop_idem games l, settleStep_restep]

/-- One loop iteration keeps `allGamesInThisSubmissionCompleted` true
exactly when the pick's game is found and completed. -/
theorem settleStep_allCompleted (games : List Game) (p : Pick) (r : SettleResult) :
    (settleStep games p r).allCompleted
      = (((games.find? (fun g => g.id == p.gameId)).map (fun g => g.completed)).getD false
          && r.allCompleted) := by
  unfold settleStep
  cases hf : games.find? (fun g => g.id == p.gameId) with
  | none => simp
  | some g =>
    by_cases hc : g.completed = true
    · cases ho : p.outcome
      · by_cases hw : (settlePendingPick g p).outcome = Outcome.win <;> simp [hc, hw]
      · simp [hc]
      · simp [hc]
    · simp [hc]

/-- The loop's completion flag is the conjunction over all picks of
"this pick's game exists and is completed". -/
theorem settlePicksLoop_allCompleted (games : List Game) :
    ∀ l : List Pick,
      (settlePicksLoop games l).allCompleted
        = l.all (fun p =>
            ((games.find? (fun g => g.id == p.gameId)).map (fun g => g.completed)).getD false)
  | [] => rfl
  | p :: l => by
    have ih := settlePicksLoop_allCompleted games l
    simp only [settlePicksLoop, settleStep_allCompleted, ih, List.all_cons]

/-- An unsettled submission is actually processed. -/
theorem processSubmission_of_not_settled (games : List Game) (s : Submission)
    (h : s.isSettled = false) : processSubmission games s = settleSubmission games s := by
  simp [processSubmission, h]

/-- The function `settleSubmission` written out against a known loop result. -/
theorem settleSubmission_eval (games : List Game) (s : Submission) (r : SettleResult)
    (h : settlePicksLoop games s.picks = r) :
    settleSubmission games s
      = ({ s with
            picks := r.picks
            totalCorrectPicks := r.tcp
            totalWinnerBucksWon := r.won
            isSettled := r.allCompleted },
         if r.allCompleted ∧ s.totalWinnerBucksWon < r.won then r.won - s.totalWinnerBucksWon
         else 0) := by
  unfold settleSubmission
  rw [h]

/-- The loop value on `s0`'s picks when only game A is completed. -/
theorem loop_run1_eval :
    settlePicksLoop [gA, gB0] [pA, pB] = ⟨[pAWin, pB], 1, 6, false⟩ := by
  have h0 : settlePicksLoop [gA, gB0] [pB] = ⟨[pB], 0, 0, false⟩ := by decide
  have h1 : settlePicksLoop [gA, gB0] [pA, pB]
      = settleStep [gA, gB0] pA (settlePicksLoop [gA, gB0] [pB]) := rfl
  have hf : [gA, gB0].find? (fun g => g.id == pA.gameId) = some gA := by decide
  rw [h1, h0]
  unfold settleStep
  rw [hf]
  norm_num [settlePendingPick, winnerOf, payoutMultiplier, gA, pA, pAWin, pB]

/-- The loop value on game B's pick alone when game B has completed. -/
theorem loop_pB_eval :
    settlePicksLoop [gA, gB1] [pB] = ⟨[pBWin], 1, 5/2, true⟩ := by
  have h1 : settlePicksLoop [gA, gB1] [pB]
      = settleStep [gA, gB1] pB (settlePicksLoop [gA, gB1] []) := rfl
  have hf : [gA, gB1].find? (fun g => g.id == pB.gameId) = some gB1 := by decide
  rw [h1]
  unfold settleStep
  rw [hf]
  norm_num [settlePicksLoop, settlePendingPick, winnerOf, payoutMultiplier, gB1, pB, pBWin]

/-- The loop value on the partially settled picks once game B has also
completed: the stored win is re-summed, the pending pick resolves. -/
theorem loop_run2_eval :
    settlePicksLoop [gA, gB1] [pAWin, pB] = ⟨[pAWin, pBWin], 2, 17/2, true⟩ := by
  have h1 : settlePicksLoop [gA, gB1] [pAWin, pB]
      = settleStep [gA, gB1] pAWin (settlePicksLoop [gA, gB1] [pB]) := rfl
  have hf : [gA, gB1].find? (fun g => g.id == pAWin.gameId) = some gA := by decide
  rw [h1, loop_pB_eval]
  unfold settleStep
  rw [hf]
  norm_num [gA, pAWin]

/-- The loop value on the fresh picks with both games completed
(the spec's end-to-end scenario A). -/
theorem loop_runA_eval :
    settlePicksLoop [gA, gB1] [pA, pB] = ⟨[pAWin, pBWin], 2, 17/2, true⟩ := by
  have h1 : settlePicksLoop [gA, gB1] [pA, pB]
      = settleStep [gA, gB1] pA (settlePicksLoop [gA, gB1] [pB]) := rfl
  have hf : [gA, gB1].find? (fun g => g.id == pA.gameId) = some gA := by decide
  rw [h1, loop_pB_eval]
  unfold settleStep
  rw [hf]
  norm_num [settlePendingPick, winnerOf, payoutMultiplier, gA, pA, pAWin]

/-- First settlement run on `s0` with game B incomplete: the prediction
document records 6 won, but the profile credit is zero. -/
theorem run1_eval : processSubmission [gA, gB0] s0 = (s0Run1, 0) := by
  rw [processSubmission_of_not_settled _ _ rfl,
    settleSubmission_eval [gA, gB0] s0 ⟨[pAWin, pB], 1, 6, false⟩ loop_run1_eval]
  norm_num [s0, s0Run1]

/-- Second settlement run, after game B completes: the credit is only
the difference `8.5 - 6 = 2.5`; the 6 recorded by the first run is never
credited. -/
theorem run2_eval : processSubmission [gA, gB1] s0Run1 = (s0Final, 5/2) := by
  rw [processSubmission_of_not_settled _ _ rfl,
    settleSubmission_eval [gA, gB1] s0Run1 ⟨[pAWin, pBWin], 2, 17/2, true⟩ loop_run2_eval]
  norm_num [s0Run1, s0Final]

/-- Single settlement run on `s0` with both games already completed:
scenario A, full credit `8.5`. -/
theorem runA_eval : processSubmission [gA, gB1] s0 = (s0Final, 17/2) := by
  rw [processSubmission_of_not_settled _ _ rfl,
    settleSubmission_eval [gA, gB1] s0 ⟨[pAWin, pBWin], 2, 17/2, true⟩ loop_runA_eval]
  norm_num [s0, s0Final]

/-! ## Claim theorems -/

/-- Claim **C5**: running the settlement engine twice in succession on the
same submission and the same game set yields the same
`totalCorrectPicks` and `totalWinnerBucksWon` after the second run as
after the first — decided picks are re-summed, never recomputed, so
repeated settlement never double-counts winnings or correct picks. -/
theorem C5_settlement_idempotent (games : List Game) (s : Submission) :
    ((processSubmission games (processSubmission games s).1).1).totalCorrectPicks
        = ((processSubmission games s).1).totalCorrectPicks ∧
    ((processSubmission games (processSubmission games s).1).1).totalWinnerBucksWon
        = ((processSubmission games s).1).totalWinnerBucksWon := by
  cases hs : s.isSettled with
  | true => simp [processSubmission, hs]
  | false =>
    rw [processSubmission_of_not_settled _ _ hs,
      settleSubmission_eval games s (settlePicksLoop games s.picks) rfl]
    by_cases hac : (settlePicksLoop games s.picks).allCompleted = true
    · simp [processSubmission, hac]
    · have hsn : (({ s with
          picks := (settlePicksLoop games s.picks).picks
          totalCorrectPicks := (settlePicksLoop games s.picks).tcp
          totalWinnerBucksWon := (settlePicksLoop games s.picks).won
          isSettled := (settlePicksLoop games s.picks).allCompleted } : Submission)).isSettled
          = false := by
        simpa using hac
      simp only
      rw [processSubmission_of_not_settled _ _ hsn,
        settleSubmission_eval games _ (settlePicksLoop games s.picks)
          (settlePicksLoop_idem games s.picks)]
      simp

/-- Claim **C2** as stated is false: on a settlement run over a not-yet-settled
submission whose games are not all completed, the newly computed
`totalWinnerBucksWon` (6) is persisted to the prediction document but
the profile credit is 0, not the difference 6−0; after the completing
run the cumulative credit is 2.5 while the final total is 8.5, so the
first run's winnings are lost. -/
theorem C2_counterexample :
    (processSubmission [gA, gB0] s0).2 = 0 ∧
    (processSubmission [gA, gB0] s0).1.totalWinnerBucksWon - s0.totalWinnerBucksWon = 6 ∧
    (0 : ℚ) ≠ 6 ∧
    (processSubmission [gA, gB0] s0).2
        + (processSubmission [gA, gB1] (processSubmission [gA, gB0] s0).1).2 = 5/2 ∧
    (processSubmission [gA, gB1] (processSubmission [gA, gB0] s0).1).1.totalWinnerBucksWon
        = 17/2 ∧
    (5/2 : ℚ) ≠ 17/2 := by
  rw [run1_eval]
  have e0 : s0.totalWinnerBucksWon = 0 := rfl
  have e1 : s0Run1.totalWinnerBucksWon = 6 := rfl
  have e2 : s0Final.totalWinnerBucksWon = 17/2 := rfl
  norm_num [run2_eval, e0, e1, e2]

/-- Claim **C2 amended**: a settlement run over a not-yet-settled submission
credits the profile either with exactly the difference between the new
and the stored `totalWinnerBucksWon` — and then only on the run that
marks the submission fully settled — or with nothing at all; runs that
leave some game incomplete persist the partial total without crediting
it, so those winnings are never credited. -/
theorem C2_amended_credit_delta_only_at_full_settlement (games : List Game) (s : Submission)
    (h : s.isSettled = false) :
    ((processSubmission games s).2
        = (processSubmission games s).1.totalWinnerBucksWon - s.totalWinnerBucksWon
      ∧ (processSubmission games s).1.isSettled = true)
    ∨ (processSubmission games s).2 = 0 := by
  rw [processSubmission_of_not_settled _ _ h,
    settleSubmission_eval games s (settlePicksLoop games s.picks) rfl]
  by_cases hc : (settlePicksLoop games s.picks).allCompleted = true
      ∧ s.totalWinnerBucksWon < (settlePicksLoop games s.picks).won
  · left
    simp [hc, hc.1]
  · right
    simp [hc]

/-- Witness for the amended C2: scenario A credits exactly the delta
`8.5 − 0` on the run that fully settles the submission. -/
theorem C2_witness :
    ((processSubmission [gA, gB1] s0).2
        = (processSubmission [gA, gB1] s0).1.totalWinnerBucksWon - s0.totalWinnerBucksWon
      ∧ (processSubmission [gA, gB1] s0).1.isSettled = true)
    ∨ (processSubmission [gA, gB1] s0).2 = 0 :=
  C2_amended_credit_delta_only_at_full_settlement [gA, gB1] s0 rfl

/-- Claim **C10**: a submission whose picks all reference completed games is
marked `isSettled = true` even if a pick is still `pending` (tie), and a
settled submission is never touched again by any later pass. -/
theorem C10_settled_is_terminal_even_with_pending_tie :
    (∀ (games : List Game) (s : Submission), s.isSettled = true →
        processSubmission games s = (s, 0)) ∧
    (∀ (games : List Game) (s : Submission), s.isSettled = false →
        s.picks.all (fun p =>
          ((games.find? (fun g => g.id == p.gameId)).map (fun g => g.completed)).getD false)
          = true →
        (processSubmission games s).1.isSettled = true) := by
  constructor
  · intro games s h
    simp [processSubmission, h]
  · intro games s hns hall
    rw [processSubmission_of_not_settled _ _ hns,
      settleSubmission_eval games s (settlePicksLoop games s.picks) rfl]
    simpa [settlePicksLoop_allCompleted] using hall

/-- Witness for C10: the tied game's submission is fully settled while
its only pick is still `pending`. -/
theorem C10_witness :
    (processSubmission [gT] sT).1.isSettled = true ∧
    (processSubmission [gT] sT).1.picks.map (fun p => p.outcome) = [Outcome.pending] := by
  refine ⟨C10_settled_is_terminal_even_with_pending_tie.2 [gT] sT (by decide) (by decide), ?_⟩
  decide

/-- Claim **C1** as stated is false: for a pending pick on a completed game
with equal scores the engine leaves the outcome `'pending'` (with zero
winnings); it does not set `'loss'` as the claim requires. -/
theorem C1_counterexample :
    (processSubmission [gT] sT).1.picks.map (fun p => p.outcome) = [Outcome.pending] ∧
    Outcome.pending ≠ Outcome.loss := by
  decide

/-- Claim **C1 amended**: for a pending pick on a completed game the engine
applies the per-pick resolution; strict score comparison picks the
winner; a winner equal to the pick gives `win` with
`winnings = tier * payoutMultiplier[tier]` (table 25→0.10, 50→0.12,
100→0.15), a differing winner gives `loss` with zero winnings, and equal
scores leave the pick `pending` with zero winnings. -/
theorem C1_amended_settlement_rules :
    (∀ (games : List Game) (p : Pick) (g : Game),
        games.find? (fun g0 => g0.id == p.gameId) = some g → g.completed = true →
        p.outcome = Outcome.pending →
        (settlePicksLoop games [p]).picks = [settlePendingPick g p]) ∧
    (∀ (g : Game) (h a : Int), g.scoreHome = some h → g.scoreAway = some a →
        ((h > a → winnerOf g = some g.homeTeam) ∧
         (a > h → winnerOf g = some g.awayTeam) ∧
         (h = a → winnerOf g = none))) ∧
    (∀ (g : Game) (p : Pick) (w : String), winnerOf g = some w →
        (settlePendingPick g p).outcome
          = (if p.pick = w then Outcome.win else Outcome.loss)) ∧
    (∀ (g : Game) (p : Pick), winnerOf g = none →
        (settlePendingPick g p).outcome = Outcome.pending
          ∧ (settlePendingPick g p).winnings = 0) ∧
    (∀ (g : Game) (p : Pick), (settlePendingPick g p).outcome = Outcome.win →
        (settlePendingPick g p).winnings = (p.tier : ℚ) * payoutMultiplier p.tier) ∧
    (∀ (g : Game) (p : Pick), (settlePendingPick g p).outcome ≠ Outcome.win →
        (settlePendingPick g p).winnings = 0) ∧
    payoutMultiplier 25 = 1/10 ∧ payoutMultiplier 50 = 3/25 ∧ payoutMultiplier 100 = 3/20 := by
  refine ⟨?_, ?_, ?_, ?_, ?_, ?_, by norm_num [payoutMultiplier],
    by norm_num [payoutMultiplier], by norm_num [payoutMultiplier]⟩
  · intro games p g hf hc ho
    have h1 : settlePicksLoop games [p] = settleStep games p ⟨[], 0, 0, true⟩ := rfl
    rw [h1, settleStep_picks]
    simp [stepPick, hf, hc, ho]
  · intro g h a hh ha
    refine ⟨fun hcmp => ?_, fun hcmp => ?_, fun hcmp => ?_⟩
    · simp [winnerOf, hh, ha, hcmp]
    · simp [winnerOf, hh, ha, hcmp, lt_asymm hcmp]
    · simp [winnerOf, hh, ha, hcmp]
  · intro g p w hw
    simp [settlePendingPick, hw]
  · intro g p hw
    simp [settlePendingPick, hw]
  · intro g p hw
    simp only [settlePendingPick] at hw ⊢
    simp [hw]
  · intro g p hw
    simp only [settlePendingPick] at hw ⊢
    simp [hw]

/-- Witness for the amended C1: in the 20–20 tie the pick stays pending
with zero winnings. -/
theorem C1_witness :
    (settlePendingPick gT pT).outcome = Outcome.pending
      ∧ (settlePendingPick gT pT).winnings = 0 :=
  C1_amended_settlement_rules.2.2.2.1 gT pT (by decide)

/-- Claim **C3** fails in the code: a single scheduled reconciliation pass
rewrites the week document with `{ ...weekInfo, ... }`, and the freshly
computed `weekInfo` always carries `tieBreakerGameId: null`, so the
stored id `"g1"` is overwritten with `null` on every sync pass. -/
theorem C3_tiebreaker_id_clobbered_by_sync :
    storedW.tieBreakerGameId = some "g1" ∧
    (getCurrentNFLWeekInfo ⟨2, 0⟩).tieBreakerGameId = none ∧
    (syncWeekPhase (getCurrentNFLWeekInfo ⟨2, 0⟩) storedW [] []).toOption.map
        (fun wd => wd.tieBreakerGameId) = some none := by
  decide

/-- The odds half of the merge never changes the completion flag. -/
theorem mergeOddsInto_completed (apiOdds : List OddsRecord) (g g2 : Game)
    (h : mergeOddsInto apiOdds g = Except.ok g2) : g2.completed = g.completed := by
  unfold mergeOddsInto at h
  repeat' split at h
  all_goals
    first
    | (injection h with h2; rw [← h2])
    | injection h

/-- Claim **C4** as stated is false: merging a fresh score fragment that
carries live scores but `completed: false` into an already-completed
stored game writes `completed = false` — the merge regresses the flag
instead of ignoring the fragment. -/
theorem C4_counterexample :
    gDone.completed = true ∧
    srRegress.id = gDone.id ∧
    srRegress.completed = false ∧
    (mergeGame [srRegress] [] none none gDone).toOption.map (fun r => r.1.completed)
      = some false := by
  decide

/-- The score half of the merge on a game absent from the batch. -/
theorem mergeScoreInto_of_none (apiScores : List ScoreRecord) (tbg : Option String)
    (attp : Option Int) (g : Game)
    (hfind : apiScores.find? (fun s => s.id == g.id) = none) :
    mergeScoreInto apiScores tbg attp g = Except.ok (g, attp) := by
  simp [mergeScoreInto, hfind]

/-- The score half of the merge on a completed record carrying scores. -/
theorem mergeScoreInto_of_completed (apiScores : List ScoreRecord) (tbg : Option String)
    (attp : Option Int) (g : Game) (sr : ScoreRecord) (es : List ScoreEntry)
    (hfind : apiScores.find? (fun s => s.id == g.id) = some sr)
    (hc : sr.completed = true) (hs : sr.scores = some es) :
    mergeScoreInto apiScores tbg attp g
      = Except.ok
          ({ g with
              scoreHome := some (scoreLookup es g.homeTeam)
              scoreAway := some (scoreLookup es g.awayTeam)
              completed := true },
           if tbg = some g.id ∧ attp = none then
             some (scoreLookup es g.homeTeam + scoreLookup es g.awayTeam)
           else attp) := by
  simp [mergeScoreInto, hfind, hc, hs]

/-- The score half of the merge throws on a completed record with no
`scores` field. -/
theorem mergeScoreInto_of_completed_noscores (apiScores : List ScoreRecord)
    (tbg : Option String) (attp : Option Int) (g : Game) (sr : ScoreRecord)
    (hfind : apiScores.find? (fun s => s.id == g.id) = some sr)
    (hc : sr.completed = true) (hs : sr.scores = none) :
    mergeScoreInto apiScores tbg attp g = Except.error () := by
  simp [mergeScoreInto, hfind, hc, hs]

/-- The score half of the merge on a live (not completed) record with
scores. -/
theorem mergeScoreInto_of_live (apiScores : List ScoreRecord) (tbg : Option String)
    (attp : Option Int) (g : Game) (sr : ScoreRecord) (es : List ScoreEntry)
    (hfind : apiScores.find? (fun s => s.id == g.id) = some sr)
    (hc : sr.completed = false) (hs : sr.scores = some es) :
    mergeScoreInto apiScores tbg attp g
      = Except.ok
          ({ g with
              scoreHome := some (scoreLookup es g.homeTeam)
              scoreAway := some (scoreLookup es g.awayTeam)
              completed := false }, attp) := by
  simp [mergeScoreInto, hfind, hc, hs]

/-- The score half of the merge on a record that is neither completed
nor carries scores. -/
theorem mergeScoreInto_of_nodata (apiScores : List ScoreRecord) (tbg : Option String)
    (attp : Option Int) (g : Game) (sr : ScoreRecord)
    (hfind : apiScores.find? (fun s => s.id == g.id) = some sr)
    (hc : sr.completed = false) (hs : sr.scores = none) :
    mergeScoreInto apiScores tbg attp g = Except.ok (g, attp) := by
  simp [mergeScoreInto, hfind, hc, hs]

/-- The full merge once the score half succeeded. -/
theorem mergeGame_of_score_ok (apiScores : List ScoreRecord) (apiOdds : List OddsRecord)
    (tbg : Option String) (attp : Option Int) (g : Game) (sa : Game × Option Int)
    (h : mergeScoreInto apiScores tbg attp g = Except.ok sa) :
    mergeGame apiScores apiOdds tbg attp g
      = (mergeOddsInto apiOdds sa.1).map (fun g2 => (g2, sa.2)) := by
  unfold mergeGame
  rw [h]

/-- A score-half throw aborts the whole merge. -/
theorem mergeGame_of_score_error (apiScores : List ScoreRecord) (apiOdds : List OddsRecord)
    (tbg : Option String) (attp : Option Int) (g : Game)
    (h : mergeScoreInto apiScores tbg attp g = Except.error ()) :
    mergeGame apiScores apiOdds tbg attp g = Except.error () := by
  unfold mergeGame
  rw [h]

/-- A successful full merge carries the score half's completion flag. -/
theorem mergeGame_completed_eq (apiScores : List ScoreRecord) (apiOdds : List OddsRecord)
    (tbg : Option String) (attp : Option Int) (g : Game) (sa : Game × Option Int)
    (g2 : Game) (attp2 : Option Int)
    (hs : mergeScoreInto apiScores tbg attp g = Except.ok sa)
    (hm : mergeGame apiScores apiOdds tbg attp g = Except.ok (g2, attp2)) :
    g2.completed = sa.1.completed := by
  rw [mergeGame_of_score_ok apiScores apiOdds tbg attp g sa hs] at hm
  cases he : mergeOddsInto apiOdds sa.1 with
  | error e =>
    rw [he] at hm
    exact absurd hm (by simp [Except.map])
  | ok gm =>
    rw [he] at hm
    simp only [Except.map, Except.ok.injEq, Prod.mk.injEq] at hm
    rw [← hm.1]
    exact mergeOddsInto_completed apiOdds _ gm he

/-- Claim **C4 amended**: when the merge of a completed stored game
succeeds, `completed` stays true unless the fresh score batch contains a
record for the game with `completed = false` and a present `scores`
field, in which case the merge overwrites `completed` to `false`; and a
batch record with `completed = true` but no `scores` field does not
produce a merged game at all — the merge throws and the pass aborts. -/
theorem C4_amended_completed_regression (apiScores : List ScoreRecord)
    (apiOdds : List OddsRecord) (tbg : Option String) (attp : Option Int) (g : Game)
    (hg : g.completed = true) :
    (∀ (g2 : Game) (attp2 : Option Int),
        mergeGame apiScores apiOdds tbg attp g = Except.ok (g2, attp2) →
        ((apiScores.find? (fun s => s.id == g.id) = none → g2.completed = true) ∧
         (∀ sr es, apiScores.find? (fun s => s.id == g.id) = some sr →
            sr.completed = true → sr.scores = some es → g2.completed = true) ∧
         (∀ sr, apiScores.find? (fun s => s.id == g.id) = some sr →
            sr.completed = false → sr.scores = none → g2.completed = true) ∧
         (∀ sr es, apiScores.find? (fun s => s.id == g.id) = some sr →
            sr.completed = false → sr.scores = some es → g2.completed = false))) ∧
    (∀ sr, apiScores.find? (fun s => s.id == g.id) = some sr → sr.completed = true →
        sr.scores = none →
        mergeGame apiScores apiOdds tbg attp g = Except.error ()) := by
  constructor
  · intro g2 attp2 hm
    refine ⟨?_, ?_, ?_, ?_⟩
    · intro hfind
      rw [mergeGame_completed_eq apiScores apiOdds tbg attp g _ g2 attp2
        (mergeScoreInto_of_none apiScores tbg attp g hfind) hm]
      exact hg
    · intro sr es hfind hc hs
      rw [mergeGame_completed_eq apiScores apiOdds tbg attp g _ g2 attp2
        (mergeScoreInto_of_completed apiScores tbg attp g sr es hfind hc hs) hm]
    · intro sr hfind hc hs
      rw [mergeGame_completed_eq apiScores apiOdds tbg attp g _ g2 attp2
        (mergeScoreInto_of_nodata apiScores tbg attp g sr hfind hc hs) hm]
      exact hg
    · intro sr es hfind hc hs
      rw [mergeGame_completed_eq apiScores apiOdds tbg attp g _ g2 attp2
        (mergeScoreInto_of_live apiScores tbg attp g sr es hfind hc hs) hm]
  · intro sr hfind hc hs
    exact mergeGame_of_score_error apiScores apiOdds tbg attp g
      (mergeScoreInto_of_completed_noscores apiScores tbg attp g sr hfind hc hs)

/-- Witness for the amended C4: a fragment that marks the game complete
with scores keeps `completed = true` after the merge, and the same
fragment without its `scores` field aborts the merge. -/
theorem C4_witness :
    gDoneMerged.completed = true ∧
    mergeGame [srDoneNoScores] [] none none gDone = Except.error () :=
  ⟨((C4_amended_completed_regression [srDone] [] none none gDone rfl).1 gDoneMerged none
      (by decide)).2.1 srDone [⟨"H", 24⟩, ⟨"A", 20⟩] (by decide) rfl rfl,
   (C4_amended_completed_regression [srDoneNoScores] [] none none gDone rfl).2
      srDoneNoScores (by decide) rfl rfl⟩

/-- Claim **C6** as stated is false: Tuesday noon (day 2) and the following
Wednesday noon (day 3) both lie inside the calendar week running from
Tuesday 00:01 (day 2) to the next Tuesday (day 9), yet the clock maps
them to different `weekId`s — the code buckets an instant by its *next*
Tuesday, so a week's instants run Wednesday through Tuesday, not Tuesday
through Monday. -/
theorem C6_counterexample :
    dayOfWeek ⟨2, 720⟩ = 2 ∧
    absMinutes ⟨2, 1⟩ ≤ absMinutes ⟨2, 720⟩ ∧
    absMinutes ⟨2, 720⟩ < absMinutes ⟨9, 1⟩ ∧
    absMinutes ⟨2, 1⟩ ≤ absMinutes ⟨3, 720⟩ ∧
    absMinutes ⟨3, 720⟩ < absMinutes ⟨9, 1⟩ ∧
    (getCurrentNFLWeekInfo ⟨2, 720⟩).weekId ≠ (getCurrentNFLWeekInfo ⟨3, 720⟩).weekId := by
  decide

/-- Claim **C6 amended**: the clock maps every instant to its next occurring
Tuesday (an instant on a Tuesday maps to that same day); all instants
sharing that Tuesday — a Wednesday-through-Tuesday stretch — get the
same `weekId`, the first day after the stretch starts the next week's
id, and the betting close and reveal are fixed at 17:00 two days and
12:00 three days after the computed Tuesday. -/
theorem C6_amended_week_clock :
    (∀ i : Instant, weekTuesday i % 7 = 2 ∧ i.day ≤ weekTuesday i ∧ weekTuesday i ≤ i.day + 6) ∧
    (∀ i1 i2 : Instant, i1.day ≤ i2.day → i2.day ≤ weekTuesday i1 →
        (getCurrentNFLWeekInfo i2).weekId = (getCurrentNFLWeekInfo i1).weekId) ∧
    (∀ i1 i2 : Instant, i2.day = weekTuesday i1 + 1 →
        (getCurrentNFLWeekInfo i2).weekId = (getCurrentNFLWeekInfo i1).weekId + 7) ∧
    (∀ i : Instant,
        (getCurrentNFLWeekInfo i).weekId = weekTuesday i ∧
        (getCurrentNFLWeekInfo i).bettingWindowStart = (weekTuesday i, 1) ∧
        (getCurrentNFLWeekInfo i).bettingWindowEnd = (weekTuesday i + 2, 17 * 60) ∧
        (getCurrentNFLWeekInfo i).picksRevealTime = (weekTuesday i + 3, 12 * 60)) := by
  refine ⟨?_, ?_, ?_, fun i => ⟨rfl, rfl, rfl, rfl⟩⟩
  · intro i
    unfold weekTuesday dayOfWeek
    omega
  · intro i1 i2 h1 h2
    show weekTuesday i2 = weekTuesday i1
    unfold weekTuesday dayOfWeek at *
    omega
  · intro i1 i2 h
    show weekTuesday i2 = weekTuesday i1 + 7
    unfold weekTuesday dayOfWeek at *
    omega

/-- Witness for the amended C6: Wednesday (day 3) and Friday (day 5)
share the weekId of Tuesday day 9, and day 10 starts the next week. -/
theorem C6_witness :
    (getCurrentNFLWeekInfo ⟨5, 900⟩).weekId = (getCurrentNFLWeekInfo ⟨3, 0⟩).weekId ∧
    (getCurrentNFLWeekInfo ⟨10, 0⟩).weekId = (getCurrentNFLWeekInfo ⟨3, 0⟩).weekId + 7 :=
  ⟨C6_amended_week_clock.2.1 ⟨3, 0⟩ ⟨5, 900⟩ (by decide) (by decide),
   C6_amended_week_clock.2.2.1 ⟨3, 0⟩ ⟨10, 0⟩ (by decide)⟩

/-- The comparator's "sorts-no-later" relation unfolded into the
three-level lexicographic chain. -/
theorem entryCmp_le_iff (t : Int) (a b : LeaderboardEntry) :
    entryCmp t a b ≤ 0 ↔
      b.totalCorrectPicks < a.totalCorrectPicks ∨
      (b.totalCorrectPicks = a.totalCorrectPicks ∧
        (b.totalWinnerBucksWon < a.totalWinnerBucksWon ∨
          (b.totalWinnerBucksWon = a.totalWinnerBucksWon ∧
            (a.tieBreakerPoints - t).natAbs ≤ (b.tieBreakerPoints - t).natAbs))) := by
  unfold entryCmp
  by_cases h1 : b.totalCorrectPicks = a.totalCorrectPicks
  · rw [if_neg (by simp [h1])]
    by_cases h2 : b.totalWinnerBucksWon = a.totalWinnerBucksWon
    · rw [if_neg (by simp [h2])]
      constructor
      · intro hle
        refine Or.inr ⟨h1, Or.inr ⟨h2, ?_⟩⟩
        have := sub_nonpos.mp hle
        exact_mod_cast this
      · rintro (hlt | ⟨-, hlt | ⟨-, hd⟩⟩)
        · exact absurd h1 (Nat.ne_of_lt hlt)
        · rw [h2] at hlt
          exact absurd hlt (lt_irrefl _)
        · refine sub_nonpos.mpr ?_
          exact_mod_cast hd
    · rw [if_pos h2]
      constructor
      · intro hle
        have hbw : b.totalWinnerBucksWon ≤ a.totalWinnerBucksWon := sub_nonpos.mp hle
        exact Or.inr ⟨h1, Or.inl (lt_of_le_of_ne hbw h2)⟩
      · rintro (hlt | ⟨-, hlt | ⟨heq, -⟩⟩)
        · exact absurd h1 (Nat.ne_of_lt hlt)
        · exact sub_nonpos.mpr (le_of_lt hlt)
        · exact absurd heq h2
  · rw [if_pos h1]
    constructor
    · intro hle
      have hb : b.totalCorrectPicks ≤ a.totalCorrectPicks := by
        have := sub_nonpos.mp hle
        exact_mod_cast this
      exact Or.inl (lt_of_le_of_ne hb h1)
    · rintro (hlt | ⟨heq, -⟩)
      · refine sub_nonpos.mpr ?_
        exact_mod_cast le_of_lt hlt
      · exact absurd heq h1

instance leOrderTotal (t : Int) : IsTotal LeaderboardEntry (leOrder t) := by
  constructor
  intro a b
  simp only [leOrder, entryCmp_le_iff]
  rcases lt_trichotomy a.totalCorrectPicks b.totalCorrectPicks with h | h | h
  · exact Or.inr (Or.inl h)
  · rcases lt_trichotomy a.totalWinnerBucksWon b.totalWinnerBucksWon with hw | hw | hw
    · exact Or.inr (Or.inr ⟨h, Or.inl hw⟩)
    · rcases Nat.le_total ((a.tieBreakerPoints - t).natAbs) ((b.tieBreakerPoints - t).natAbs)
        with hd | hd
      · exact Or.inl (Or.inr ⟨h.symm, Or.inr ⟨hw.symm, hd⟩⟩)
      · exact Or.inr (Or.inr ⟨h, Or.inr ⟨hw, hd⟩⟩)
    · exact Or.inl (Or.inr ⟨h.symm, Or.inl hw⟩)
  · exact Or.inl (Or.inl h)

instance leOrderTrans (t : Int) : IsTrans LeaderboardEntry (leOrder t) := by
  constructor
  intro a b c hab hbc
  simp only [leOrder, entryCmp_le_iff] at hab hbc ⊢
  rcases hab with h1 | ⟨e1, hab2⟩
  · rcases hbc with h2 | ⟨e2, -⟩
    · exact Or.inl (lt_trans h2 h1)
    · exact Or.inl (e2 ▸ h1)
  · rcases hbc with h2 | ⟨e2, hbc2⟩
    · exact Or.inl (e1 ▸ h2)
    · refine Or.inr ⟨e2.trans e1, ?_⟩
      rcases hab2 with hw1 | ⟨ew1, hd1⟩
      · rcases hbc2 with hw2 | ⟨ew2, -⟩
        · exact Or.inl (lt_trans hw2 hw1)
        · exact Or.inl (ew2 ▸ hw1)
      · rcases hbc2 with hw2 | ⟨ew2, hd2⟩
        · exact Or.inl (ew1 ▸ hw2)
        · exact Or.inr ⟨ew2.trans ew1, le_trans hd1 hd2⟩

/-- Claim **C7**: the leaderboard builder orders entries by correct picks
descending, then winnings descending, then distance of the tie-breaker
guess ascending (the output is sorted under the comparator's order, and
the builder is a pure function of its input, hence deterministic); in
the concrete tie scenario with actual total 50, the user who guessed 48
ranks above the one who guessed 55. -/
theorem C7_leaderboard_order :
    (∀ (t : Int) (l : List LeaderboardEntry), List.Sorted (leOrder t) (sortEntries t l)) ∧
    sortEntries 50 [entryY, entryX] = [entryX, entryY] := by
  refine ⟨fun t l => List.sorted_insertionSort (leOrder t) l, ?_⟩
  have h1 : ¬ leOrder 50 entryY entryX := by
    simp only [leOrder, entryCmp_le_iff, entryX, entryY]
    norm_num
  simp [sortEntries, List.insertionSort, List.orderedInsert, h1]

/-- Claim **C8**: a leaderboard document is produced exactly when every game
of the week is completed and the tie-breaker total is set; while either
condition fails, no (partial) leaderboard is written. -/
theorem C8_leaderboard_all_or_nothing (wd : WeekDoc) (entries : List LeaderboardEntry) :
    (leaderboardPhase wd entries).isSome
      = (wd.games.all (fun g => g.completed) && wd.actualTieBreakerTotalPoints.isSome) := by
  unfold leaderboardPhase
  by_cases hall : wd.games.all (fun g => g.completed) = true
  · cases ht : wd.actualTieBreakerTotalPoints <;> simp [hall, ht]
  · simp [hall]

/-- Claim **C9** as stated is false on both paths: a record without a
`bookmakers` field normalizes to empty odds on the on-demand path but
raises a `TypeError` on the scheduled sync path
(`apiGame.bookmakers[0]` is evaluated before the optional chain
starts); and a record whose first bookmaker lacks a `markets` field
raises on the on-demand path too (`firstBookmaker.markets.find`). -/
theorem C9_counterexample :
    eNoBook.bookmakers = none ∧
    normalizeOddsEvent eNoBook
      = Except.ok (⟨"e1", "HN", "AN", 0, [], none, none, false⟩ : Game) ∧
    syncNewGameOdds eNoBook = Except.error () ∧
    appendNewGames [] [eNoBook] = Except.error () ∧
    normalizeOddsEvent eNoMarkets = Except.error () := by
  decide

/-- Claim **C9 amended**: a record with no `bookmakers` field yields
empty odds on the on-demand path but raises a `TypeError` on the sync
path; an empty `bookmakers` list, or a first bookmaker whose present
markets list has no h2h market, yields empty odds on both paths; a
first bookmaker without a `markets` field, or a found h2h market
without an `outcomes` field, raises a `TypeError` on both paths; and a
successful extraction produces the normalized `Game` with null scores
and `completed: false` while an extraction failure propagates. -/
theorem C9_amended_normalizer :
    (∀ e : OddsRecord, e.bookmakers = none →
        extractMoneylineOnDemand e = Except.ok [] ∧ syncNewGameOdds e = Except.error ()) ∧
    (∀ e : OddsRecord, e.bookmakers = some [] →
        extractMoneylineOnDemand e = Except.ok [] ∧ syncNewGameOdds e = Except.ok []) ∧
    (∀ (e : OddsRecord) (b : Bookmaker) (bs : List Bookmaker) (ms : List Market),
        e.bookmakers = some (b :: bs) → b.markets = some ms →
        ms.find? (fun m => m.key == "h2h") = none →
        extractMoneylineOnDemand e = Except.ok [] ∧ syncNewGameOdds e = Except.ok []) ∧
    (∀ (e : OddsRecord) (b : Bookmaker) (bs : List Bookmaker),
        e.bookmakers = some (b :: bs) → b.markets = none →
        extractMoneylineOnDemand e = Except.error ()
          ∧ syncNewGameOdds e = Except.error ()) ∧
    (∀ (e : OddsRecord) (b : Bookmaker) (bs : List Bookmaker) (ms : List Market) (m : Market),
        e.bookmakers = some (b :: bs) → b.markets = some ms →
        ms.find? (fun m0 => m0.key == "h2h") = some m → m.outcomes = none →
        extractMoneylineOnDemand e = Except.error ()
          ∧ syncNewGameOdds e = Except.error ()) ∧
    (∀ (e : OddsRecord) (ml : List (String × Int)),
        extractMoneylineOnDemand e = Except.ok ml →
        normalizeOddsEvent e
          = Except.ok
              { id := e.id
              , homeTeam := e.homeTeam
              , awayTeam := e.awayTeam
              , commenceTime := e.commenceTime
              , moneyline := ml
              , scoreHome := none
              , scoreAway := none
              , completed := false }) ∧
    (∀ e : OddsRecord, extractMoneylineOnDemand e = Except.error () →
        normalizeOddsEvent e = Except.error ()) := by
  refine ⟨?_, ?_, ?_, ?_, ?_, ?_, ?_⟩
  · intro e he
    exact ⟨by simp [extractMoneylineOnDemand, he], by simp [syncNewGameOdds, he]⟩
  · intro e he
    exact ⟨by simp [extractMoneylineOnDemand, he], by simp [syncNewGameOdds, he]⟩
  · intro e b bs ms he hb hm
    exact ⟨by simp [extractMoneylineOnDemand, he, hb, hm],
      by simp [syncNewGameOdds, he, hb, hm]⟩
  · intro e b bs he hb
    exact ⟨by simp [extractMoneylineOnDemand, he, hb],
      by simp [syncNewGameOdds, he, hb]⟩
  · intro e b bs ms m he hb hm ho
    exact ⟨by simp [extractMoneylineOnDemand, he, hb, hm, ho],
      by simp [syncNewGameOdds, he, hb, hm, ho]⟩
  · intro e ml he
    unfold normalizeOddsEvent
    rw [he]
    rfl
  · intro e he
    unfold normalizeOddsEvent
    rw [he]
    rfl

/-- Witness for the amended C9: the empty-list and missing-h2h records
normalize to empty odds on both paths, and the missing-markets and
missing-outcomes records raise on both paths. -/
theorem C9_witness :
    (extractMoneylineOnDemand eEmptyBook = Except.ok []
        ∧ syncNewGameOdds eEmptyBook = Except.ok []) ∧
    (extractMoneylineOnDemand eNoH2h = Except.ok []
        ∧ syncNewGameOdds eNoH2h = Except.ok []) ∧
    (extractMoneylineOnDemand eNoMarkets = Except.error ()
        ∧ syncNewGameOdds eNoMarkets = Except.error ()) ∧
    (extractMoneylineOnDemand eNoOutcomes = Except.error ()
        ∧ syncNewGameOdds eNoOutcomes = Except.error ()) :=
  ⟨C9_amended_normalizer.2.1 eEmptyBook rfl,
   C9_amended_normalizer.2.2.1 eNoH2h ⟨some [⟨"totals", some []⟩]⟩ []
     [⟨"totals", some []⟩] rfl rfl (by decide),
   C9_amended_normalizer.2.2.2.1 eNoMarkets ⟨none⟩ [] rfl rfl,
   C9_amended_normalizer.2.2.2.2.1 eNoOutcomes ⟨some [⟨"h2h", none⟩]⟩ []
     [⟨"h2h", none⟩] ⟨"h2h", none⟩ rfl rfl (by decide) rfl⟩

end PredictPro
